import Mathlib

/-!
Shallow embedding of the portfolio backend (src/index.js, with src/unnamed/part_000 an
earlier near-duplicate without the upload middleware). The document store is modelled
as in-memory lists, dates as natural-number timestamps, and the database-native
`ObjectId` as a natural number.
-/

namespace Portfolio

/-- A document of the `projects` collection (`ProjectSchema`, src/index.js lines 17-42).
The free-form `client` object is modelled as an opaque string payload. -/
structure Project where
  id : Nat
  title : String
  client : Option String
  category : String
  img : String
  description : Option String
  technologies : List String
  createdAt : Nat
  updatedAt : Nat
deriving Repr, DecidableEq

/-- A document of the `feedback` collection (`FeedbackSchema`, src/index.js lines 45-83).
`_id` is the database-native identity. -/
structure Feedback where
  _id : Nat
  name : String
  role : String
  company : String
  email : String
  subject : String
  message : String
  approved : Bool
  createdAt : Nat
deriving Repr, DecidableEq

/-- A document of the `hireme` collection (`HireMeSchema`, src/index.js lines 85-112). -/
structure HireMe where
  _id : Nat
  name : String
  email : String
  company : Option String
  projectType : String
  projectDescription : String
  budget : Option Int
  timeframe : Option String
  createdAt : Nat
deriving Repr, DecidableEq

/-- Insert `x` into a list already sorted by `key` descending, keeping it descending. -/
def insertDesc (key : α → Nat) (x : α) : List α → List α
  | [] => [x]
  | y :: ys => if key y ≤ key x then x :: y :: ys else y :: insertDesc key x ys

/-- Sort a list by `key` descending: the store's `.sort` with the field mapped to `-1`,
as used by the list routes (`createdAt` descending) and by the id lookup on creation
(`id` descending). Ties are left in a fixed but unspecified-by-the-store order. -/
def sortDesc (key : α → Nat) : List α → List α
  | [] => []
  | x :: xs => insertDesc key x (sortDesc key xs)

theorem insertDesc_perm (key : α → Nat) (x : α) :
    ∀ l : List α, List.Perm (insertDesc key x l) (x :: l)
  | [] => List.Perm.refl _
  | y :: ys => by
    simp only [insertDesc]
    split
    · exact List.Perm.refl _
    · exact (List.Perm.cons y (insertDesc_perm key x ys)).trans (List.Perm.swap x y ys)

theorem sortDesc_perm (key : α → Nat) : ∀ l : List α, List.Perm (sortDesc key l) l
  | [] => List.Perm.refl _
  | x :: xs =>
    (insertDesc_perm key x (sortDesc key xs)).trans (List.Perm.cons x (sortDesc_perm key xs))

theorem insertDesc_pairwise (key : α → Nat) (x : α) :
    ∀ l : List α, l.Pairwise (fun a b => key b ≤ key a) →
      (insertDesc key x l).Pairwise (fun a b => key b ≤ key a)
  | [], _ => by simp [insertDesc]
  | y :: ys, h => by
    rw [List.pairwise_cons] at h
    obtain ⟨hy, hys⟩ := h
    simp only [insertDesc]
    split
    next hle =>
      rw [List.pairwise_cons]
      refine ⟨?_, ?_⟩
      · intro b hb
        rcases List.mem_cons.mp hb with rfl | hb
        · exact hle
        · exact le_trans (hy b hb) hle
      · rw [List.pairwise_cons]
        exact ⟨hy, hys⟩
    next hgt =>
      rw [List.pairwise_cons]
      refine ⟨?_, insertDesc_pairwise key x ys hys⟩
      intro b hb
      rcases List.mem_cons.mp ((insertDesc_perm key x ys).mem_iff.mp hb) with rfl | hb
      · exact le_of_not_le hgt
      · exact hy b hb

theorem sortDesc_pairwise (key : α → Nat) :
    ∀ l : List α, (sortDesc key l).Pairwise (fun a b => key b ≤ key a)
  | [] => List.Pairwise.nil
  | x :: xs => insertDesc_pairwise key x _ (sortDesc_pairwise key xs)

theorem sortDesc_head_max (key : α → Nat) (l : List α) (x : α)
    (h : (sortDesc key l).head? = some x) : x ∈ l ∧ ∀ y ∈ l, key y ≤ key x := by
  cases hs : sortDesc key l with
  | nil => rw [hs] at h; cases h
  | cons a t =>
    rw [hs] at h
    have hax : a = x := by injection h
    subst hax
    have hperm := sortDesc_perm key l
    rw [hs] at hperm
    have hpw := sortDesc_pairwise key l
    rw [hs, List.pairwise_cons] at hpw
    refine ⟨hperm.mem_iff.mp (List.mem_cons_self a t), ?_⟩
    intro y hy
    rcases List.mem_cons.mp (hperm.mem_iff.mpr hy) with rfl | hyt
    · exact le_refl _
    · exact hpw.1 y hyt

theorem foldr_max_le (x : Nat) :
    ∀ l : List Nat, (∀ y ∈ l, y ≤ x) → l.foldr Nat.max 0 ≤ x
  | [], _ => Nat.zero_le x
  | a :: t, h => by
    simp only [List.foldr]
    exact Nat.max_le.mpr ⟨h a (List.mem_cons_self a t),
      foldr_max_le x t (fun y hy => h y (List.mem_cons_of_mem a hy))⟩

theorem le_foldr_max (x : Nat) : ∀ l : List Nat, x ∈ l → x ≤ l.foldr Nat.max 0
  | [], h => absurd h (List.not_mem_nil x)
  | a :: t, h => by
    simp only [List.foldr]
    rcases List.mem_cons.mp h with rfl | ht
    · exact Nat.le_max_left _ _
    · exact le_trans (le_foldr_max x t ht) (Nat.le_max_right _ _)

/-- A string is present and non-empty: what `notEmpty()` checks on a text field
(absence and the empty string both fail it). -/
def strPresent (s : String) : Bool :=
  !s.toList.isEmpty

def isSpaceChar (c : Char) : Bool :=
  c == ' ' || c == Char.ofNat 9 || c == Char.ofNat 10 || c == Char.ofNat 13

/-- JS `String.prototype.trim` / the `trim()` sanitizer and mongoose `trim: true`:
strip leading and trailing whitespace. -/
def trimString (s : String) : String :=
  String.mk (((s.toList.dropWhile isSpaceChar).reverse.dropWhile isSpaceChar).reverse)

def lowerChar (c : Char) : Char :=
  if 'A' ≤ c && c ≤ 'Z' then Char.ofNat (c.toNat + 32) else c

/-- Lowercasing as performed by `normalizeEmail()` and mongoose `lowercase: true`. -/
def lowerAscii (s : String) : String :=
  String.mk (s.toList.map lowerChar)

/-- The `escape()` sanitizer of express-validator: HTML-significant characters are
replaced by entities. -/
def escapeChar (c : Char) : String :=
  if c = '&' then "&amp;"
  else if c = '<' then "&lt;"
  else if c = '>' then "&gt;"
  else if c = Char.ofNat 34 then "&quot;"
  else if c = Char.ofNat 39 then "&#x27;"
  else if c = '/' then "&#x2F;"
  else String.singleton c

def escapeHtml (s : String) : String :=
  String.join (s.toList.map escapeChar)

/-- Split a character list on the dots, as validator.js `isFQDN` splits the domain
into labels. -/
def splitOnDot : List Char → List (List Char)
  | [] => [[]]
  | c :: cs =>
    if c = '.' then [] :: splitOnDot cs
    else
      match splitOnDot cs with
      | [] => [[c]]
      | p :: ps => (c :: p) :: ps

def alphaChar (c : Char) : Bool :=
  ('a' ≤ c && c ≤ 'z') || ('A' ≤ c && c ≤ 'Z')

/-- The domain side of validator.js `isEmail` (`isFQDN` with the default
`require_tld`): at least two dot-separated labels, every label non-empty, and the
last label — the TLD — at least two characters, alphabetic. -/
def domainShape (cs : List Char) : Bool :=
  let parts := splitOnDot cs
  decide (2 ≤ parts.length) && parts.all (fun p => !p.isEmpty) &&
    (let tld := parts.getLastD []
     decide (2 ≤ tld.length) && tld.all alphaChar)

/-- Shallow model of express-validator `isEmail()`: a single `@` separating a
non-empty local part from a domain satisfying `domainShape` — in particular the
`require_tld` rule, under which a one-letter TLD such as "b.c" fails. The local-part
grammar and the label charset/length caps of validator.js are not modelled; no claim
depends on them. -/
def emailShape (s : String) : Bool :=
  let cs := s.toList
  let pre := cs.takeWhile (fun c => c != '@')
  match cs.dropWhile (fun c => c != '@') with
  | [] => false
  | _ :: rest => !pre.isEmpty && !rest.contains '@' && domainShape rest

/-- The text body of a project request (JSON on PUT, the multipart text fields on
POST). `none` marks a field the client did not send; for `title` and `category`
absence is folded into the empty string, which `notEmpty()` treats the same way.
`createdAt` and `updatedAt` model extra fields a client may include: no validator
strips them and the route handlers spread the whole body into the stored document. -/
structure ProjectBody where
  title : String
  category : String
  img : Option String
  client : Option String
  description : Option String
  technologies : Option (List String)
  createdAt : Option Nat
  updatedAt : Option Nat
deriving Repr, DecidableEq

/-- Model of `validateProject` (src/index.js lines 120-127): `title`, `category` and `img` must
be present and non-empty; the remaining rules are type checks that the typed body
already guarantees. `notEmpty()` runs before the sanitizers in each chain, so it sees
the raw value. -/
def validateProject (b : ProjectBody) : Bool :=
  strPresent b.title && strPresent b.category &&
    (match b.img with
     | some s => strPresent s
     | none => false)

/-- The sanitizers of `validateProject` as applied to the body the handler then reads:
`trim().escape()` on `title`, `category` and `description`. -/
def sanitizeProjectBody (b : ProjectBody) : ProjectBody :=
  { b with
    title := escapeHtml (trimString b.title)
    category := escapeHtml (trimString b.category)
    description := b.description.map (fun s => escapeHtml (trimString s)) }

/-- The file multer hands to the handler as `req.file`. -/
structure UploadedFile where
  originalname : String
  mimetype : String
  size : Nat
deriving Repr, DecidableEq

/-- Model of `fileFilter` (src/index.js lines 192-199). -/
def fileFilter (f : UploadedFile) : Bool :=
  ["image/jpeg", "image/png", "image/gif"].contains f.mimetype

/-- multer's `limits.fileSize`: 5 * 1024 * 1024 bytes (src/index.js line 205). -/
def fileSizeLimit : Nat := 5 * 1024 * 1024

/-- The stored filename chosen by the disk storage engine:
`Date.now() + '-' + file.originalname` (src/index.js line 188). -/
def storedFilename (now : Nat) (f : UploadedFile) : String :=
  toString now ++ "-" ++ f.originalname

/-- Model of `Project.findOne().sort({id: -1})` (src/index.js line 217): the stored project
with the greatest `id`. -/
def lastProjectByDescId (ps : List Project) : Option Project :=
  (sortDesc Project.id ps).head?

/-- Model of `const newId = lastProject ? lastProject.id + 1 : 1` (src/index.js line 218). -/
def newProjectId (ps : List Project) : Nat :=
  match lastProjectByDescId ps with
  | some p => p.id + 1
  | none => 1

inductive CreateProjectResult where
  /-- multer aborted the request (rejected type, or size over the limit); the error
  reaches the error-handler middleware and the handler body never runs. -/
  | uploadRejected (msg : String)
  /-- 400 with the validation errors array. -/
  | validationError
  /-- the handler raised reading `req.file.filename` with no file attached (500). -/
  | fileAccessError
  /-- 201 with the created record. -/
  | created (p : Project)
deriving Repr, DecidableEq

/-- POST /api/projects (src/index.js lines 210-232) composed with the multer
middleware `upload.single('img')`. Returns the outcome and the collection afterwards.
The stored document is `{...req.body, id: newId, img: uploadPath, updatedAt: now}`,
so the body's `createdAt` (when sent) wins over the schema default, while `id`, `img`
and `updatedAt` are overridden by the route. -/
def createProject (ps : List Project) (b : ProjectBody) (file : Option UploadedFile)
    (now : Nat) : CreateProjectResult × List Project :=
  match file with
  | some f =>
    if !fileFilter f then
      (.uploadRejected "Invalid file type. Only JPEG, PNG and GIF allowed.", ps)
    else if fileSizeLimit < f.size then
      (.uploadRejected "File too large", ps)
    else if !validateProject b then
      (.validationError, ps)
    else
      let sb := sanitizeProjectBody b
      let p : Project :=
        { id := newProjectId ps
          title := sb.title
          client := sb.client
          category := sb.category
          img := "/uploads/projects/" ++ storedFilename now f
          description := sb.description
          technologies := sb.technologies.getD []
          createdAt := sb.createdAt.getD now
          updatedAt := now }
      (.created p, ps ++ [p])
  | none =>
    if !validateProject b then (.validationError, ps)
    else (.fileAccessError, ps)

/-- The `$set` document `{...req.body, updatedAt: new Date()}` of PUT
/api/projects/:id applied to a stored project: every field present in the body
overwrites the stored field — including `createdAt` when the client sends one — and
`updatedAt` is always the current time, because the spread puts the body's fields
before the route's `updatedAt`. -/
def applyProjectSet (b : ProjectBody) (now : Nat) (p : Project) : Project :=
  { id := p.id
    title := b.title
    client := match b.client with
      | some c => some c
      | none => p.client
    category := b.category
    img := b.img.getD p.img
    description := match b.description with
      | some d => some d
      | none => p.description
    technologies := b.technologies.getD p.technologies
    createdAt := b.createdAt.getD p.createdAt
    updatedAt := now }

/-- A `findOneAndUpdate`-style helper: rewrite the first element satisfying `hit` with
`f`, returning the (post-update) element and the new list, or `none` when nothing
matches. -/
def updateFirst (hit : α → Bool) (f : α → α) : List α → Option (α × List α)
  | [] => none
  | x :: xs =>
    if hit x then some (f x, f x :: xs)
    else
      match updateFirst hit f xs with
      | some (q, xs') => some (q, x :: xs')
      | none => none

inductive UpdateProjectResult where
  | validationError
  | notFound
  | updated (p : Project)
deriving Repr, DecidableEq

/-- PUT /api/projects/:id (src/index.js lines 238-259). -/
def updateProject (ps : List Project) (pid : Nat) (b : ProjectBody) (now : Nat) :
    UpdateProjectResult × List Project :=
  if !validateProject b then (.validationError, ps)
  else
    match updateFirst (fun p => p.id == pid) (applyProjectSet (sanitizeProjectBody b) now) ps with
    | some (q, ps') => (.updated q, ps')
    | none => (.notFound, ps)

/-- GET /api/projects: `Project.find().sort({createdAt: -1})` (src/index.js line 159). -/
def listProjects (ps : List Project) : List Project :=
  sortDesc Project.createdAt ps

/-- GET /api/feedback: `Feedback.find().sort({createdAt: -1})` (src/index.js line 293). -/
def listFeedback (fs : List Feedback) : List Feedback :=
  sortDesc Feedback.createdAt fs

/-- GET /api/hire-me: `HireMe.find().sort({createdAt: -1})` (src/index.js line 318). -/
def listHireMe (hs : List HireMe) : List HireMe :=
  sortDesc HireMe.createdAt hs

/-- The JSON body of a feedback request. `none` marks absent fields; for the six
required text fields absence is folded into the empty string, which the validators
treat the same way. `approved` and `createdAt` model extra fields a client may send:
no validator strips them and both are paths of the mongoose schema, so
`new Feedback(req.body)` assigns them when present. -/
structure FeedbackBody where
  name : String
  role : String
  company : String
  email : String
  subject : String
  message : String
  approved : Option Bool
  createdAt : Option Nat
deriving Repr, DecidableEq

/-- Model of `validateFeedback` (src/index.js lines 129-136). -/
def validateFeedback (b : FeedbackBody) : Bool :=
  strPresent b.name && strPresent b.role && strPresent b.company &&
    emailShape b.email && strPresent b.subject && strPresent b.message

/-- The sanitizers of `validateFeedback`: `trim().escape()` on the text fields and
`normalizeEmail()` (modelled as lowercasing) on `email`. -/
def sanitizeFeedbackBody (b : FeedbackBody) : FeedbackBody :=
  { b with
    name := escapeHtml (trimString b.name)
    role := escapeHtml (trimString b.role)
    company := escapeHtml (trimString b.company)
    email := lowerAscii b.email
    subject := escapeHtml (trimString b.subject)
    message := escapeHtml (trimString b.message) }

/-- Model of `new Feedback(req.body)` (src/index.js line 283): every schema path present in
the body is assigned — including `approved` when the client sends one — and `approved`
and `createdAt` fall back to the schema defaults `false` and `Date.now`. The schema
additionally trims `name`, `role`, `company`, `email` and lowercases `email`; `fid`
is the ObjectId the store assigns on save. -/
def newFeedback (b : FeedbackBody) (fid : Nat) (now : Nat) : Feedback :=
  { _id := fid
    name := trimString b.name
    role := trimString b.role
    company := trimString b.company
    email := lowerAscii (trimString b.email)
    subject := b.subject
    message := b.message
    approved := b.approved.getD false
    createdAt := b.createdAt.getD now }

inductive CreateFeedbackResult where
  | validationError
  | created (f : Feedback)
deriving Repr, DecidableEq

/-- POST /api/feedback (src/index.js lines 274-289). -/
def createFeedback (fs : List Feedback) (b : FeedbackBody) (fid : Nat) (now : Nat) :
    CreateFeedbackResult × List Feedback :=
  if !validateFeedback b then (.validationError, fs)
  else
    let f := newFeedback (sanitizeFeedbackBody b) fid now
    (.created f, fs ++ [f])

inductive ApproveFeedbackResult where
  | notFound
  | ok (f : Feedback)
deriving Repr, DecidableEq

/-- PUT /api/feedback/:id/approve (src/index.js lines 325-341):
`findByIdAndUpdate(req.params.id, {approved: true}, {new: true})`. The request body
`b` is accepted but never read by the handler. -/
def approveFeedback (fs : List Feedback) (fid : Nat) (_reqBody : FeedbackBody) :
    ApproveFeedbackResult × List Feedback :=
  match updateFirst (fun f => f._id == fid) (fun f => { f with approved := true }) fs with
  | some (q, fs') => (.ok q, fs')
  | none => (.notFound, fs)

/-- Remove the first element satisfying `hit`. -/
def eraseFirst (hit : α → Bool) : List α → List α
  | [] => []
  | x :: xs => if hit x then xs else x :: eraseFirst hit xs

/-- The result document of the store's `deleteOne`. -/
structure DeleteResult where
  acknowledged : Bool
  deletedCount : Nat
deriving Repr, DecidableEq

/-- Model of `Feedback.deleteOne({_id: req.params.id})` (src/index.js line 345): the store
acknowledges the write whether or not a document matched; `deletedCount` records how
many documents were removed. -/
def deleteOneFeedback (fs : List Feedback) (fid : Nat) : DeleteResult × List Feedback :=
  if fs.any (fun f => f._id == fid) then
    ({ acknowledged := true, deletedCount := 1 }, eraseFirst (fun f => f._id == fid) fs)
  else
    ({ acknowledged := true, deletedCount := 0 }, fs)

inductive DeleteFeedbackResult where
  /-- 404 with "Feedback not found". -/
  | notFound
  /-- 200 with the raw delete result. -/
  | ack (r : DeleteResult)
deriving Repr, DecidableEq

/-- DELETE /api/feedback/:id/delete (src/index.js lines 343-355): the route answers
404 only when `acknowledged` is false, otherwise 200 with the raw delete result —
`deletedCount` is never inspected. -/
def deleteFeedbackRoute (fs : List Feedback) (fid : Nat) :
    DeleteFeedbackResult × List Feedback :=
  let r := deleteOneFeedback fs fid
  if !r.1.acknowledged then (.notFound, r.2)
  else (.ack r.1, r.2)

/-- The JSON document sent by the error-handler middleware (src/index.js lines
149-154), registered via `app.use(errorHandler)` at line 358. -/
structure ErrorResponse where
  status : Nat
  message : String
  error : String
deriving Repr, DecidableEq

def errorHandler (errMessage : String) : ErrorResponse :=
  { status := 500, message := "Something went wrong!", error := errMessage }

/-- What a request handler produced on one request. -/
inductive HandlerOutcome (α : Type) where
  /-- a JSON response with this status was sent -/
  | responded (status : Nat) (body : α)
  /-- the handler raised after sending nothing: no middleware receives the error and
  the request gets no response -/
  | crashed (err : String)
deriving Repr, DecidableEq

/-- GET /api/projects (src/index.js lines 157-164) with the database call's result
injected. The handler's signature is `(req, res)`: no `next` parameter is bound, so
when the query fails the `catch` block's `next(err)` itself throws
`ReferenceError: next is not defined` inside the async function, the shared
`errorHandler` never runs, and no response is sent. Only POST /api/projects
(line 210) binds `next` and actually reaches `errorHandler`. -/
def getProjectsRoute (dbResult : Except String (List Project)) :
    HandlerOutcome (List Project) :=
  match dbResult with
  | .ok ps => .responded 200 (listProjects ps)
  | .error _ => .crashed "ReferenceError: next is not defined"

/-- The ordering requirement the specification states for the list routes: `createdAt`
strictly decreasing along the returned list. -/
def strictDescBy (key : α → Nat) : List α → Bool
  | [] => true
  | [_] => true
  | a :: b :: t => decide (key b < key a) && strictDescBy key (b :: t)

theorem updateFirst_eq_some (hit : α → Bool) (f : α → α) :
    ∀ l q l', updateFirst hit f l = some (q, l') →
      ∃ l1 x l2, l = l1 ++ x :: l2 ∧ l' = l1 ++ f x :: l2 ∧ q = f x ∧
        hit x = true ∧ ∀ y ∈ l1, hit y = false
  | [], q, l', h => by simp [updateFirst] at h
  | x :: xs, q, l', h => by
    simp only [updateFirst] at h
    by_cases hx : hit x
    · rw [if_pos hx] at h
      injection h with h1
      injection h1 with hq hl'
      exact ⟨[], x, xs, rfl, hl'.symm, hq.symm, hx, by simp⟩
    · rw [if_neg hx] at h
      cases hrec : updateFirst hit f xs with
      | none => rw [hrec] at h; cases h
      | some r =>
        obtain ⟨q0, xs'⟩ := r
        rw [hrec] at h
        injection h with h1
        injection h1 with hq hl'
        obtain ⟨l1, y, l2, hxs, hxs', hq0, hy, hmiss⟩ :=
          updateFirst_eq_some hit f xs q0 xs' hrec
        refine ⟨x :: l1, y, l2, by rw [hxs, List.cons_append], ?_, ?_, hy, ?_⟩
        · rw [← hl', hxs', List.cons_append]
        · rw [← hq, hq0]
        · intro z hz
          rcases List.mem_cons.mp hz with rfl | hz
          · exact Bool.eq_false_iff.mpr hx
          · exact hmiss z hz

theorem updateFirst_append (hit : α → Bool) (f : α → α) :
    ∀ l1 : List α, ∀ z l2, (∀ y ∈ l1, hit y = false) → hit z = true →
      updateFirst hit f (l1 ++ z :: l2) = some (f z, l1 ++ f z :: l2)
  | [], z, l2, _, hz => by simp [updateFirst, hz]
  | x :: l1, z, l2, hmiss, hz => by
    have hx : hit x = false := hmiss x (List.mem_cons_self x l1)
    have hrec := updateFirst_append hit f l1 z l2
      (fun y hy => hmiss y (List.mem_cons_of_mem x hy)) hz
    simp [updateFirst, hx, hrec]

theorem newProjectId_eq (ps : List Project) :
    newProjectId ps = (ps.map Project.id).foldr Nat.max 0 + 1 := by
  cases hs : sortDesc Project.id ps with
  | nil =>
    have hperm := sortDesc_perm Project.id ps
    rw [hs] at hperm
    have hnil : ps = [] := hperm.symm.eq_nil
    subst hnil
    rfl
  | cons a t =>
    have hhead : (sortDesc Project.id ps).head? = some a := by rw [hs]; rfl
    obtain ⟨hmem, hmax⟩ := sortDesc_head_max Project.id ps a hhead
    have hfold : (ps.map Project.id).foldr Nat.max 0 = a.id := by
      refine Nat.le_antisymm ?_ ?_
      · refine foldr_max_le a.id _ ?_
        intro y hy
        obtain ⟨p, hp, rfl⟩ := List.mem_map.mp hy
        exact hmax p hp
      · exact le_foldr_max a.id _ (List.mem_map_of_mem Project.id hmem)
    simp only [newProjectId, lastProjectByDescId, hhead]
    rw [hfold]

/-- Strict descent along the whole list implies the adjacent-pair check. Its
contrapositive turns a failed `strictDescBy` run into a refutation of strict
ordering. -/
theorem pairwise_lt_strictDescBy (key : α → Nat) :
    ∀ l : List α, l.Pairwise (fun a b => key b < key a) → strictDescBy key l = true
  | [], _ => rfl
  | [_], _ => rfl
  | a :: b :: t, h => by
    rw [List.pairwise_cons] at h
    obtain ⟨ha, ht⟩ := h
    simp only [strictDescBy, Bool.and_eq_true, decide_eq_true_eq]
    exact ⟨ha b (List.mem_cons_self b t), pairwise_lt_strictDescBy key (b :: t) ht⟩

/- Shared sample data for witnesses and counterexamples. -/

def sampleStored : Project :=
  { id := 4
    title := "old"
    client := none
    category := "web"
    img := "/uploads/projects/1-a.png"
    description := none
    technologies := []
    createdAt := 3
    updatedAt := 3 }

def sampleBody : ProjectBody :=
  { title := "Site"
    category := "web"
    img := some "x"
    client := none
    description := none
    technologies := none
    createdAt := none
    updatedAt := none }

def samplePng : UploadedFile :=
  { originalname := "a.png", mimetype := "image/png", size := 1024 }

def samplePdf : UploadedFile :=
  { originalname := "a.pdf", mimetype := "application/pdf", size := 1024 }

/-- The record POST /api/projects stores for `sampleStored`, `sampleBody`,
`samplePng` at time 7. -/
def sampleCreated : Project :=
  { id := 5
    title := "Site"
    client := none
    category := "web"
    img := "/uploads/projects/7-a.png"
    description := none
    technologies := []
    createdAt := 7
    updatedAt := 7 }

/-- C1: for every successful project creation, the returned record's `id` equals the
maximum `id` among the projects existing at creation time plus 1 (the empty fold is
0, so the value is 1 when no projects exist, as the second conjunct restates). -/
theorem claim1_create_id_is_max_plus_one (ps : List Project) (b : ProjectBody)
    (file : Option UploadedFile) (now : Nat) (p : Project) (ps' : List Project)
    (h : createProject ps b file now = (CreateProjectResult.created p, ps')) :
    p.id = (ps.map Project.id).foldr Nat.max 0 + 1 ∧ (ps = [] → p.id = 1) := by
  have hid : p.id = newProjectId ps := by
    cases file with
    | none =>
      simp only [createProject] at h
      split at h <;> simp_all
    | some f =>
      simp only [createProject] at h
      split at h
      · simp at h
      · split at h
        · simp at h
        · split at h
          · simp at h
          · simp only [Prod.mk.injEq, CreateProjectResult.created.injEq] at h
            rw [← h.1]
  rw [hid, newProjectId_eq]
  refine ⟨rfl, fun hnil => ?_⟩
  subst hnil
  rfl

theorem claim1_witness :
    sampleCreated.id = ([sampleStored].map Project.id).foldr Nat.max 0 + 1 ∧
    ([sampleStored] = ([] : List Project) → sampleCreated.id = 1) :=
  claim1_create_id_is_max_plus_one [sampleStored] sampleBody (some samplePng) 7
    sampleCreated [sampleStored, sampleCreated] (by decide)

/-- C2 (amended): each list route returns exactly the stored entries ordered by
`createdAt` descending; the descent is non-strict, entries sharing a `createdAt`
may appear in either order. -/
theorem claim2_list_sorted_desc (ps : List Project) (fs : List Feedback)
    (hs : List HireMe) :
    (List.Perm (listProjects ps) ps ∧
      (listProjects ps).Pairwise (fun a b => b.createdAt ≤ a.createdAt)) ∧
    (List.Perm (listFeedback fs) fs ∧
      (listFeedback fs).Pairwise (fun a b => b.createdAt ≤ a.createdAt)) ∧
    (List.Perm (listHireMe hs) hs ∧
      (listHireMe hs).Pairwise (fun a b => b.createdAt ≤ a.createdAt)) :=
  ⟨⟨sortDesc_perm _ ps, sortDesc_pairwise _ ps⟩,
   ⟨sortDesc_perm _ fs, sortDesc_pairwise _ fs⟩,
   ⟨sortDesc_perm _ hs, sortDesc_pairwise _ hs⟩⟩

/-- A second project stored at the same instant as `sampleStored`. -/
def sampleStoredTwin : Project :=
  { sampleStored with id := 9, title := "twin" }

/-- C2 counterexample: two projects created at the same instant; the list route's
output is not strictly descending in `createdAt` (by `pairwise_lt_strictDescBy`
the adjacent-pair check returning `false` refutes strict ordering). -/
theorem claim2_counterexample :
    strictDescBy Project.createdAt (listProjects [sampleStored, sampleStoredTwin]) = false := by
  decide

/-- C7: a project-create request whose file has a content type outside
{JPEG, PNG, GIF} or a size over 5 MiB is rejected by the upload layer and the
collection is unchanged. -/
theorem claim7_bad_upload_rejected (ps : List Project) (b : ProjectBody)
    (f : UploadedFile) (now : Nat)
    (h : fileFilter f = false ∨ fileSizeLimit < f.size) :
    (∃ msg, (createProject ps b (some f) now).1 = CreateProjectResult.uploadRejected msg) ∧
    (createProject ps b (some f) now).2 = ps := by
  rcases h with hf | hsz
  · exact ⟨⟨"Invalid file type. Only JPEG, PNG and GIF allowed.",
      by simp [createProject, hf]⟩, by simp [createProject, hf]⟩
  · by_cases hf : fileFilter f
    · exact ⟨⟨"File too large", by simp [createProject, hf, hsz]⟩,
        by simp [createProject, hf, hsz]⟩
    · have hf' : fileFilter f = false := Bool.eq_false_iff.mpr hf
      exact ⟨⟨"Invalid file type. Only JPEG, PNG and GIF allowed.",
        by simp [createProject, hf']⟩, by simp [createProject, hf']⟩

theorem claim7_witness :
    (∃ msg, (createProject [] sampleBody (some samplePdf) 0).1 =
      CreateProjectResult.uploadRejected msg) ∧
    (createProject [] sampleBody (some samplePdf) 0).2 = [] :=
  claim7_bad_upload_rejected [] sampleBody samplePdf 0 (Or.inl (by decide))

/-- A body with every text field valid except that no `img` text field is sent. -/
def sampleBodyNoImg : ProjectBody :=
  { sampleBody with img := none }

/-- C9: under the upload middleware, a body with no non-empty `img` text field fails
`validateProject` with a 400 even when an accepted image file rides along in
`req.file`, and the collection is unchanged. -/
theorem claim9_missing_body_img_is_400 (ps : List Project) (b : ProjectBody)
    (f : UploadedFile) (now : Nat) (hf : fileFilter f = true)
    (hsize : f.size ≤ fileSizeLimit) (himg : b.img = none ∨ b.img = some "") :
    createProject ps b (some f) now = (CreateProjectResult.validationError, ps) := by
  have hv : validateProject b = false := by
    have he : strPresent "" = false := by decide
    rcases himg with h | h <;> simp [validateProject, h, he]
  have hns : ¬ fileSizeLimit < f.size := Nat.not_lt.mpr hsize
  simp [createProject, hf, hns, hv]

theorem claim9_witness :
    createProject [sampleStored] sampleBodyNoImg (some samplePng) 9 =
      (CreateProjectResult.validationError, [sampleStored]) :=
  claim9_missing_body_img_is_400 [sampleStored] sampleBodyNoImg samplePng 9
    (by decide) (by decide) (Or.inl rfl)

/-- C3 (amended): a successful project update sets `updatedAt` to the current time —
hence a value ≥ the previous one whenever the clock did not go backwards — and leaves
`createdAt` unchanged for every request body that does not itself carry a `createdAt`
field. (A body carrying one overwrites the stored value: the update document is the
spread of the whole body; see the counterexample.) -/
theorem claim3_update_refreshes_updatedAt_keeps_createdAt (ps : List Project)
    (pid : Nat) (b : ProjectBody) (now : Nat) (q : Project) (ps' : List Project)
    (hb : b.createdAt = none)
    (h : updateProject ps pid b now = (UpdateProjectResult.updated q, ps')) :
    ∃ l1 p l2, ps = l1 ++ p :: l2 ∧ ps' = l1 ++ q :: l2 ∧
      q.createdAt = p.createdAt ∧ q.updatedAt = now ∧
      (p.updatedAt ≤ now → p.updatedAt ≤ q.updatedAt) := by
  simp only [updateProject] at h
  split at h
  · simp at h
  · cases hu : updateFirst (fun p => p.id == pid)
        (applyProjectSet (sanitizeProjectBody b) now) ps with
    | none => rw [hu] at h; simp at h
    | some r =>
      obtain ⟨q0, ps0⟩ := r
      rw [hu] at h
      simp only [Prod.mk.injEq, UpdateProjectResult.updated.injEq] at h
      obtain ⟨hq, hps⟩ := h
      obtain ⟨l1, p, l2, h1, h2, hq0, _, _⟩ := updateFirst_eq_some _ _ ps q0 ps0 hu
      have hqx : q = applyProjectSet (sanitizeProjectBody b) now p := hq ▸ hq0
      have hps' : ps' = l1 ++ q :: l2 := by rw [← hps, h2, hqx]
      have hcr : q.createdAt = p.createdAt := by
        rw [hqx]
        simp [applyProjectSet, sanitizeProjectBody, hb]
      have hup : q.updatedAt = now := by rw [hqx]; rfl
      exact ⟨l1, p, l2, h1, hps', hcr, hup, fun hle => by rw [hup]; exact hle⟩

/-- The stored record after updating `sampleStored` with `sampleBody` at time 50. -/
def sampleUpdated : Project :=
  { id := 4
    title := "Site"
    client := none
    category := "web"
    img := "x"
    description := none
    technologies := []
    createdAt := 3
    updatedAt := 50 }

theorem claim3_witness :
    ∃ l1 p l2, [sampleStored] = l1 ++ p :: l2 ∧ [sampleUpdated] = l1 ++ sampleUpdated :: l2 ∧
      sampleUpdated.createdAt = p.createdAt ∧ sampleUpdated.updatedAt = 50 ∧
      (p.updatedAt ≤ 50 → p.updatedAt ≤ sampleUpdated.updatedAt) :=
  claim3_update_refreshes_updatedAt_keeps_createdAt [sampleStored] 4 sampleBody 50
    sampleUpdated [sampleUpdated] rfl (by decide)

/-- A valid update body that also smuggles in a `createdAt` value. -/
def sampleBodyBackdated : ProjectBody :=
  { sampleBody with createdAt := some 99 }

/-- The record stored after updating `sampleStored` with `sampleBodyBackdated`. -/
def sampleBackdated : Project :=
  { sampleUpdated with createdAt := 99 }

/-- C3 counterexample: updating with a valid body that carries `createdAt: 99`
succeeds and rewrites the stored `createdAt` from 3 to 99 — `createdAt` is not
immutable under updates. -/
theorem claim3_counterexample :
    updateProject [sampleStored] 4 sampleBodyBackdated 50 =
      (UpdateProjectResult.updated sampleBackdated, [sampleBackdated]) ∧
    sampleStored.createdAt = 3 ∧ sampleBackdated.createdAt = 99 := by
  decide

/-- A valid feedback body carrying no extra fields. -/
def sampleFeedbackBody : FeedbackBody :=
  { name := "Ada"
    role := "Dev"
    company := "ACME"
    email := "a@b.co"
    subject := "Hi"
    message := "Nice"
    approved := none
    createdAt := none }

/-- The record stored for `sampleFeedbackBody` with ObjectId 1 at time 20. -/
def sampleUnapprovedRec : Feedback :=
  { _id := 1
    name := "Ada"
    role := "Dev"
    company := "ACME"
    email := "a@b.co"
    subject := "Hi"
    message := "Nice"
    approved := false
    createdAt := 20 }

/-- The record `sampleUnapprovedRec` once approved. -/
def sampleApprovedRec : Feedback :=
  { sampleUnapprovedRec with approved := true }

/-- The body `sampleFeedbackBody` with the client also sending `approved: true`. -/
def sampleApprovedBody : FeedbackBody :=
  { sampleFeedbackBody with approved := some true }

/-- C4 (amended): a feedback record created from a body that does not itself carry an
`approved` field has `approved = false`. (A body carrying `approved: true` is stored
as sent, because `new Feedback(req.body)` assigns every schema path present in the
body; see the counterexample.) -/
theorem claim4_created_feedback_unapproved (fs : List Feedback) (b : FeedbackBody)
    (fid : Nat) (now : Nat) (f : Feedback) (fs' : List Feedback)
    (hb : b.approved = none)
    (h : createFeedback fs b fid now = (CreateFeedbackResult.created f, fs')) :
    f.approved = false := by
  simp only [createFeedback] at h
  split at h
  · simp at h
  · simp only [Prod.mk.injEq, CreateFeedbackResult.created.injEq] at h
    rw [← h.1]
    simp [newFeedback, sanitizeFeedbackBody, hb]

theorem claim4_witness : sampleUnapprovedRec.approved = false :=
  claim4_created_feedback_unapproved [] sampleFeedbackBody 1 20 sampleUnapprovedRec
    [sampleUnapprovedRec] rfl (by decide)

/-- C4 counterexample: the same creation with `approved: true` in the body succeeds
and stores the record already approved — no approve operation involved. -/
theorem claim4_counterexample :
    createFeedback [] sampleApprovedBody 1 20 =
      (CreateFeedbackResult.created sampleApprovedRec, [sampleApprovedRec]) ∧
    sampleApprovedRec.approved = true := by
  decide

/-- C5 (code bug): deleting a feedback id with no matching record still answers 200
with the raw acknowledgment `{acknowledged: true, deletedCount: 0}` and an unchanged
collection. The route tests `acknowledged` — which the store sets on every processed
delete — instead of `deletedCount`, so its "Feedback not found" 404 branch is
unreachable. -/
theorem claim5_delete_missing_still_acked :
    deleteFeedbackRoute [sampleUnapprovedRec] 5 =
      (DeleteFeedbackResult.ack { acknowledged := true, deletedCount := 0 },
        [sampleUnapprovedRec]) := by
  decide

/-- C6: approving the same feedback twice is idempotent: when the first approve
succeeds, the second succeeds too, returns the same record with `approved = true`,
and leaves the collection exactly as the first call left it. -/
theorem claim6_approve_idempotent (fs : List Feedback) (fid : Nat)
    (b b2 : FeedbackBody) (q : Feedback) (fs' : List Feedback)
    (h : approveFeedback fs fid b = (ApproveFeedbackResult.ok q, fs')) :
    approveFeedback fs' fid b2 = (ApproveFeedbackResult.ok q, fs') ∧
    q.approved = true := by
  simp only [approveFeedback] at h ⊢
  cases hu : updateFirst (fun f => f._id == fid) (fun f => { f with approved := true }) fs with
  | none => rw [hu] at h; simp at h
  | some r =>
    obtain ⟨q0, fs0⟩ := r
    rw [hu] at h
    simp only [Prod.mk.injEq, ApproveFeedbackResult.ok.injEq] at h
    obtain ⟨hq, hfs⟩ := h
    obtain ⟨l1, x, l2, h1, h2, hq0, hhit, hmiss⟩ := updateFirst_eq_some _ _ fs q0 fs0 hu
    have hqx : q = { x with approved := true } := hq ▸ hq0
    have hfs' : fs' = l1 ++ ({ x with approved := true } : Feedback) :: l2 := by
      rw [← hfs, h2]
    have happ := updateFirst_append (fun f => f._id == fid)
      (fun f => { f with approved := true }) l1 ({ x with approved := true }) l2 hmiss hhit
    constructor
    · rw [hfs', happ, hqx]
    · rw [hqx]

theorem claim6_witness :
    approveFeedback [sampleApprovedRec] 1 sampleFeedbackBody =
      (ApproveFeedbackResult.ok sampleApprovedRec, [sampleApprovedRec]) ∧
    sampleApprovedRec.approved = true :=
  claim6_approve_idempotent [sampleUnapprovedRec] 1 sampleFeedbackBody
    sampleFeedbackBody sampleApprovedRec [sampleApprovedRec] (by decide)

/-- C8 (code bug): when the projects query fails, GET /api/projects produces no
response at all — its handler binds no `next` parameter, so the catch block itself
raises `ReferenceError` — instead of the 500 "Something went wrong!" document that
`errorHandler` would send had the error reached it. -/
theorem claim8_unforwarded_error_sends_no_500 :
    getProjectsRoute (Except.error "database connection lost") =
      HandlerOutcome.crashed "ReferenceError: next is not defined" ∧
    errorHandler "database connection lost" =
      { status := 500, message := "Something went wrong!",
        error := "database connection lost" } := by
  decide

/-- C10: a successful approve changes only `approved` on the matched record — every
other stored field of that record survives — leaves every other record in place, and
ignores the request body entirely. -/
theorem claim10_approve_touches_only_approved (fs : List Feedback) (fid : Nat)
    (b : FeedbackBody) (q : Feedback) (fs' : List Feedback)
    (h : approveFeedback fs fid b = (ApproveFeedbackResult.ok q, fs')) :
    (∃ l1 x l2, fs = l1 ++ x :: l2 ∧ fs' = l1 ++ q :: l2 ∧
      q._id = x._id ∧ q.name = x.name ∧ q.role = x.role ∧ q.company = x.company ∧
      q.email = x.email ∧ q.subject = x.subject ∧ q.message = x.message ∧
      q.createdAt = x.createdAt ∧ q.approved = true) ∧
    ∀ b2, approveFeedback fs fid b2 = (ApproveFeedbackResult.ok q, fs') := by
  refine ⟨?_, fun b2 => h⟩
  simp only [approveFeedback] at h
  cases hu : updateFirst (fun f => f._id == fid) (fun f => { f with approved := true }) fs with
  | none => rw [hu] at h; simp at h
  | some r =>
    obtain ⟨q0, fs0⟩ := r
    rw [hu] at h
    simp only [Prod.mk.injEq, ApproveFeedbackResult.ok.injEq] at h
    obtain ⟨hq, hfs⟩ := h
    obtain ⟨l1, x, l2, h1, h2, hq0, _, _⟩ := updateFirst_eq_some _ _ fs q0 fs0 hu
    have hqx : q = { x with approved := true } := hq ▸ hq0
    have hfs' : fs' = l1 ++ q :: l2 := by rw [← hfs, h2, hqx]
    subst hqx
    exact ⟨l1, x, l2, h1, hfs', rfl, rfl, rfl, rfl, rfl, rfl, rfl, rfl, rfl⟩

theorem claim10_witness :
    (∃ l1 x l2, [sampleUnapprovedRec] = l1 ++ x :: l2 ∧
      [sampleApprovedRec] = l1 ++ sampleApprovedRec :: l2 ∧
      sampleApprovedRec._id = x._id ∧ sampleApprovedRec.name = x.name ∧
      sampleApprovedRec.role = x.role ∧ sampleApprovedRec.company = x.company ∧
      sampleApprovedRec.email = x.email ∧ sampleApprovedRec.subject = x.subject ∧
      sampleApprovedRec.message = x.message ∧
      sampleApprovedRec.createdAt = x.createdAt ∧ sampleApprovedRec.approved = true) ∧
    ∀ b2, approveFeedback [sampleUnapprovedRec] 1 b2 =
      (ApproveFeedbackResult.ok sampleApprovedRec, [sampleApprovedRec]) :=
  claim10_approve_touches_only_approved [sampleUnapprovedRec] 1 sampleFeedbackBody
    sampleApprovedRec [sampleApprovedRec] (by decide)

end Portfolio
